import Mathlib

/-!
Shallow embedding of the constant-evaluation scope stack of
`crates/rune/src/shared/scopes.rs`, together with a model of the
illegal-`break` diagnostic contract exercised by
`crates/rune/tests/test_illegal_breaks.rs`.

Representation notes:
* The Rust `Vec<Scope<T>>` pushes at the end and iterates `.rev()` from the
  end; we embed it as a Lean `List (Scope T)` whose HEAD is the innermost
  frame (the Vec's last element) and whose last element is the root frame
  (the Vec's index 0).  `Vec::push` is `cons`, `Vec::pop` removes the head,
  `last_mut` is the head, and `iter().rev()` is plain list order.
* `HashMap<String, T>` is embedded as its lookup function
  `String → Option T`; `insert` is a pointwise update and `clear` yields
  the everywhere-`none` map.
* Rust methods taking `&mut self` and returning `Result<(), E>` are
  embedded as state-passing functions returning `Scopes T × Except E Unit`,
  so the state a failing call leaves behind is observable (the source
  mutates `self` even on the error paths).
* `Span` stands for `runestick::Span` (a byte range); the `Spanned`
  argument of each fallible operation is embedded as the span it yields.
-/

/-- A source byte range, standing for `runestick::Span`.  The Rust field
`end` is a Lean keyword, so it is called `stop` here. -/
structure Span where
  start : Nat
  stop : Nat
deriving DecidableEq, Repr

/-- An internal invariant-violation error: a span plus a static message
(`Internal::new(spanned, msg)`). -/
structure Internal where
  span : Span
  message : String
deriving DecidableEq, Repr

/-- `Internal::new`. -/
def Internal.new (span : Span) (message : String) : Internal :=
  ⟨span, message⟩

/-- The kind of a user-diagnosable scope error (`ScopeErrorKind`). -/
inductive ScopeErrorKind where
  | MissingLocal (name : String)
deriving DecidableEq, Repr

/-- A user-diagnosable scope error: a span plus a kind (`ScopeError`). -/
structure ScopeError where
  span : Span
  kind : ScopeErrorKind
deriving DecidableEq, Repr

/-- `ScopeError::new`. -/
def ScopeError.new (span : Span) (kind : ScopeErrorKind) : ScopeError :=
  ⟨span, kind⟩

/-- One scope frame: `locals: HashMap<String, T>`, embedded as its lookup
function. -/
structure Scope (T : Type) where
  locals : String → Option T

/-- `Scope::default()`: an empty frame. -/
def Scope.default {T : Type} : Scope T :=
  ⟨fun _ => none⟩

/-- `HashMap::insert` on a frame: bind `name` to `value`, keep the rest. -/
def Scope.insert {T : Type} (sc : Scope T) (name : String) (value : T) :
    Scope T :=
  ⟨fun k => if k = name then some value else sc.locals k⟩

/-- The scope stack `Scopes<T>`: head of the list = innermost frame. -/
structure Scopes (T : Type) where
  scopes : List (Scope T)

/-- The guard returned by `Scopes::push` (`ScopeGuard { length: usize }`). -/
structure ScopeGuard where
  length : Nat
deriving DecidableEq, Repr

/-- The loop body shared by `Scopes::get` and `Scopes::get_name`:
`for scope in self.scopes.iter().rev() { if let Some(current) = ... }`,
over the frames listed innermost first. -/
def lookupFrames {T : Type} (name : String) : List (Scope T) → Option T
  | [] => none
  | sc :: rest =>
    match sc.locals name with
    | some current => some current
    | none => lookupFrames name rest

/-- `Scopes::get`: scan frames innermost-to-outermost, first match or
`None`. -/
def Scopes.get {T : Type} (s : Scopes T) (name : String) : Option T :=
  lookupFrames name s.scopes

/-- `Scopes::get_name`: the same reverse scan, but absence yields
`ScopeError::MissingLocal` at the supplied span. -/
def get_nameFrames {T : Type} (name : String) (spanned : Span) :
    List (Scope T) → Except ScopeError T
  | [] => .error (ScopeError.new spanned (.MissingLocal name))
  | sc :: rest =>
    match sc.locals name with
    | some current => .ok current
    | none => get_nameFrames name spanned rest

/-- `Scopes::get_name`. -/
def Scopes.get_name {T : Type} (s : Scopes T) (name : String)
    (spanned : Span) : Except ScopeError T :=
  get_nameFrames name spanned s.scopes

/-- `Scopes::get_name_mut`: the same scan over `iter_mut().rev()`.  The
mutable reference is embedded as the found value paired with the write-back
function the reference denotes: applying the function to `v` is writing `v`
through the reference. -/
def get_name_mutFrames {T : Type} (name : String) (spanned : Span) :
    List (Scope T) → Except ScopeError (T × (T → List (Scope T)))
  | [] => .error (ScopeError.new spanned (.MissingLocal name))
  | sc :: rest =>
    match sc.locals name with
    | some current => .ok (current, fun v => sc.insert name v :: rest)
    | none =>
      match get_name_mutFrames name spanned rest with
      | .ok (current, setv) => .ok (current, fun v => sc :: setv v)
      | .error e => .error e

/-- `Scopes::get_name_mut`. -/
def Scopes.get_name_mut {T : Type} (s : Scopes T) (name : String)
    (spanned : Span) : Except ScopeError (T × (T → Scopes T)) :=
  match get_name_mutFrames name spanned s.scopes with
  | .ok (current, setv) => .ok (current, fun v => ⟨setv v⟩)
  | .error e => .error e

/-- `Scopes::last_mut`: `self.scopes.last_mut()` — the innermost frame,
i.e. the head of our list. -/
def Scopes.last_mut {T : Type} (s : Scopes T) : Option (Scope T) :=
  s.scopes.head?

/-- `Scopes::clear_current`: `last_mut` or the "expected at least one
scope" internal error, then `last.locals.clear()`. -/
def Scopes.clear_current {T : Type} (s : Scopes T) (spanned : Span) :
    Scopes T × Except Internal Unit :=
  match s.scopes with
  | [] => (s, .error (Internal.new spanned "expected at least one scope"))
  | _last :: rest => (⟨Scope.default :: rest⟩, .ok ())

/-- `Scopes::decl`: `last_mut` or the "expected at least one scope"
internal error, then `last.locals.insert(name, value)`. -/
def Scopes.decl {T : Type} (s : Scopes T) (name : String) (value : T)
    (spanned : Span) : Scopes T × Except Internal Unit :=
  match s.scopes with
  | [] => (s, .error (Internal.new spanned "expected at least one scope"))
  | last :: rest => (⟨last.insert name value :: rest⟩, .ok ())

/-- `Scopes::push`: `let length = self.scopes.len();` then push an empty
frame and return `ScopeGuard { length }` — the length is read BEFORE the
push. -/
def Scopes.push {T : Type} (s : Scopes T) : Scopes T × ScopeGuard :=
  let length := s.scopes.length
  (⟨Scope.default :: s.scopes⟩, ⟨length⟩)

/-- `Scopes::pop`: pop the innermost frame (error if there was none),
THEN compare the remaining length with the guard.  The frame removal
happens before the check, so the returned state is the shrunk stack even
when the check fails. -/
def Scopes.pop {T : Type} (s : Scopes T) (spanned : Span)
    (guard : ScopeGuard) : Scopes T × Except Internal Unit :=
  match s.scopes with
  | [] => (s, .error (Internal.new spanned "expected at least one scope to pop"))
  | _ :: rest =>
    if rest.length ≠ guard.length then
      (⟨rest⟩, .error (Internal.new spanned "scope length mismatch"))
    else
      (⟨rest⟩, .ok ())

/-- `Scopes::default()`: a stack with exactly one (root) frame. -/
def Scopes.default {T : Type} : Scopes T :=
  ⟨[Scope.default]⟩

/-!
Driver programs for the pairing invariant (claim about sequences of
operations in which every push is paired with exactly one pop using that
push's own guard, in LIFO order).  `Prog` is the grammar of exactly those
call sequences: a `block` performs `push`, runs its body, and performs
`pop` with the guard that very push returned; `declOp`, `clearOp` and
`lookupOp` interleave the other operations arbitrarily.
-/

/-- A correctly paired call sequence against a `Scopes T`. -/
inductive Prog (T : Type) where
  | nil : Prog T
  | declOp (name : String) (value : T) (spanned : Span) (rest : Prog T) : Prog T
  | clearOp (spanned : Span) (rest : Prog T) : Prog T
  | lookupOp (name : String) (rest : Prog T) : Prog T
  | block (spanned : Span) (body : Prog T) (rest : Prog T) : Prog T

/-- Run a paired call sequence.  Returns the final state and the list of
states observed after every single primitive operation (`decl`,
`clear_current`, `get`, `push`, `pop`), or `none` if any operation
reported an error. -/
def runProg {T : Type} : Prog T → Scopes T → Option (Scopes T × List (Scopes T))
  | .nil, s => some (s, [])
  | .declOp name value spanned p, s =>
    match Scopes.decl s name value spanned with
    | (s1, .ok _) => (runProg p s1).map (fun r => (r.1, s1 :: r.2))
    | (_, .error _) => none
  | .clearOp spanned p, s =>
    match Scopes.clear_current s spanned with
    | (s1, .ok _) => (runProg p s1).map (fun r => (r.1, s1 :: r.2))
    | (_, .error _) => none
  | .lookupOp name p, s =>
    match Scopes.get s name with
    | _ => (runProg p s).map (fun r => (r.1, s :: r.2))
  | .block spanned body p, s =>
    match Scopes.push s with
    | (s1, guard) =>
      match runProg body s1 with
      | none => none
      | some (s2, tr) =>
        match Scopes.pop s2 spanned guard with
        | (s3, .ok _) =>
          (runProg p s3).map (fun r => (r.1, s1 :: (tr ++ s3 :: r.2)))
        | (_, .error _) => none

/-!
Model of the illegal-`break` diagnostic contract.  The compiler front-end
that produces these diagnostics is not part of this component's sources
(only its test `crates/rune/tests/test_illegal_breaks.rs` is), so it is
modelled from the spec below.
-/

/-- The characters of the `break` keyword. -/
def breakTok : List Char :=
  ['b', 'r', 'e', 'a', 'k']

/-- Byte offset of the first occurrence of `tok` in `source` (all the test
programs are ASCII, so byte offsets coincide with character indices). -/
def findTok (tok : List Char) : List Char → Option Nat
  | [] => none
  | c :: rest =>
    if tok.isPrefixOf (c :: rest) then some 0
    else (findTok tok rest).map (· + 1)

/-- The two diagnostics of `rune::EncodeError` the tests match on. -/
inductive EncodeError where
  | BreakOutsideOfLoop (span : Span)
  | BreakDoesNotProduceValue (span : Span)
deriving DecidableEq, Repr

/-- Modelled from the spec: the compiler front-end (not under the sources
of this component) that compiles a `fn main` whose body is a single
`break` outside any loop.  Per the spec, compilation fails with a
"break outside of loop" diagnostic when `break` is used as a statement
(followed by `;`), and with a "break does not produce a value" diagnostic
when `break` is used where an expression value is required; either way the
diagnostic's span covers exactly the `break` token's byte range in the
source text. -/
def compileIllegalBreak (source : List Char) : Option EncodeError :=
  match findTok breakTok source with
  | none => none
  | some i =>
    let span : Span := ⟨i, i + breakTok.length⟩
    if (source.drop (i + breakTok.length)).headD ' ' = ';' then
      some (.BreakOutsideOfLoop span)
    else
      some (.BreakDoesNotProduceValue span)

/-- The source program of the test `break_outside_of_loop`. -/
def sourceBreakStatement : List Char :=
  "\n            fn main() \x7b\n                break;\n            \x7d\n        ".toList

/-- The source program of the test `test_break_as_value`. -/
def sourceBreakValue : List Char :=
  "\n            fn main() \x7b\n                break\n            \x7d\n        ".toList

/-!
Helper lemmas relating the three lookup scans.
-/

/-- `get_nameFrames` is the `lookupFrames` scan with absence turned into a
`MissingLocal` error. -/
theorem get_nameFrames_eq_lookupFrames {T : Type} (name : String)
    (spanned : Span) (l : List (Scope T)) :
    get_nameFrames name spanned l =
      match lookupFrames name l with
      | some v => .ok v
      | none => .error (ScopeError.new spanned (.MissingLocal name)) := by
  induction l with
  | nil => rfl
  | cons sc rest ih =>
    cases h : sc.locals name <;>
      simp [get_nameFrames, lookupFrames, h, ih]

/-- Reading the value found by the mutable scan gives exactly the
immutable scan's result. -/
theorem get_name_mutFrames_fst {T : Type} (name : String) (spanned : Span)
    (l : List (Scope T)) :
    Except.map Prod.fst (get_name_mutFrames name spanned l)
      = get_nameFrames name spanned l := by
  induction l with
  | nil => rfl
  | cons sc rest ih =>
    cases h : sc.locals name with
    | some current => simp [get_name_mutFrames, get_nameFrames, h, Except.map]
    | none =>
      simp only [get_name_mutFrames, get_nameFrames, h]
      cases h2 : get_name_mutFrames name spanned rest with
      | ok r =>
        rw [h2] at ih
        simp [Except.map] at ih ⊢
        exact ih
      | error e =>
        rw [h2] at ih
        simp [Except.map] at ih ⊢
        exact ih

/-- C5: `get` (= `lookup`) never fails and returns the innermost-to-
outermost first match or nothing; `get_name` (= `lookup_or_fail`) returns
exactly the value `get` finds and turns absence into a `MissingLocal`
error carrying the name and the supplied span; and the mutable variant
`get_name_mut` succeeds and fails on exactly the same inputs with the same
found value and error. -/
theorem lookup_or_fail_refines_lookup {T : Type} (s : Scopes T)
    (name : String) (spanned : Span) :
    (∀ v : T, s.get_name name spanned = .ok v ↔ s.get name = some v) ∧
    (s.get name = none ↔
      s.get_name name spanned
        = .error (ScopeError.new spanned (.MissingLocal name))) ∧
    Except.map Prod.fst (s.get_name_mut name spanned)
      = s.get_name name spanned := by
  have hframes := get_nameFrames_eq_lookupFrames name spanned s.scopes
  have hmut := get_name_mutFrames_fst name spanned s.scopes
  refine ⟨fun v => ?_, ?_, ?_⟩
  · rw [Scopes.get_name, Scopes.get, hframes]
    cases h : lookupFrames name s.scopes <;> simp
  · rw [Scopes.get_name, Scopes.get, hframes]
    cases h : lookupFrames name s.scopes <;> simp
  · rw [Scopes.get_name_mut, Scopes.get_name]
    cases h2 : get_name_mutFrames name spanned s.scopes with
    | ok r =>
      rw [h2] at hmut
      simp [Except.map] at hmut ⊢
      exact hmut
    | error e =>
      rw [h2] at hmut
      simp [Except.map] at hmut ⊢
      exact hmut

/-- C1: `pop(span, guard)` removes the innermost frame, and succeeds
exactly when the resulting stack length equals the length the stack had
immediately before the push that issued the guard (the guard from
`Scopes.push s0` records `s0.scopes.length`); it fails as an internal
invariant violation on an already-empty stack, or with "scope length
mismatch" when the length after removal differs from that depth — so in
particular pushing twice and popping with the first push's guard fails. -/
theorem pop_guard_correct {T : Type} (s0 s : Scopes T) (spanned : Span) :
    ((Scopes.pop s spanned (Scopes.push s0).2).2 = Except.ok () ↔
      (Scopes.pop s spanned (Scopes.push s0).2).1.scopes.length
          = s0.scopes.length ∧ s.scopes ≠ []) ∧
    (s.scopes = [] → Scopes.pop s spanned (Scopes.push s0).2
      = (s, .error (Internal.new spanned "expected at least one scope to pop"))) ∧
    (∀ fr rest, s.scopes = fr :: rest →
      (Scopes.pop s spanned (Scopes.push s0).2).1 = ⟨rest⟩ ∧
      (rest.length ≠ s0.scopes.length →
        (Scopes.pop s spanned (Scopes.push s0).2).2
          = .error (Internal.new spanned "scope length mismatch"))) ∧
    (Scopes.pop (Scopes.push (Scopes.push s0).1).1 spanned
        (Scopes.push s0).2).2
      = .error (Internal.new spanned "scope length mismatch") := by
  refine ⟨?_, ?_, ?_, ?_⟩
  · cases hs : s.scopes with
    | nil => simp [Scopes.pop, hs]
    | cons fr rest =>
      simp only [Scopes.pop, Scopes.push, hs]
      by_cases hl : rest.length = s0.scopes.length <;> simp [hl]
  · intro hs
    simp [Scopes.pop, hs]
  · intro fr rest hs
    simp only [Scopes.pop, Scopes.push, hs]
    by_cases hl : rest.length = s0.scopes.length <;> simp [hl]
  · simp [Scopes.pop, Scopes.push]

/-- Witness for `pop_guard_correct`: on an empty stack the pop fails with
the underflow error, and on the fresh one-frame stack a pop with a guard
issued against a two-frame stack fails with the mismatch error. -/
theorem pop_guard_correct_witness :
    Scopes.pop (T := Nat) ⟨[]⟩ ⟨0, 0⟩ (Scopes.push (T := Nat) Scopes.default).2
      = (⟨[]⟩, .error (Internal.new ⟨0, 0⟩ "expected at least one scope to pop")) ∧
    (Scopes.pop (T := Nat) Scopes.default ⟨0, 0⟩
        (Scopes.push (T := Nat) ⟨[Scope.default, Scope.default]⟩).2).2
      = .error (Internal.new ⟨0, 0⟩ "scope length mismatch") :=
  ⟨(pop_guard_correct Scopes.default ⟨[]⟩ ⟨0, 0⟩).2.1 rfl,
   ((pop_guard_correct ⟨[Scope.default, Scope.default]⟩ Scopes.default
      ⟨0, 0⟩).2.2.1 Scope.default [] rfl).2 (by decide)⟩

/-- C2 counterexample: pushing onto the fresh one-frame stack yields a
guard recording 1 while the stack length immediately after the push is 2,
so the guard does NOT record the post-push length; moreover the matching
pop succeeds although the resulting length (1) is not the guard's recorded
length minus one (0). -/
theorem guard_after_push_counterexample :
    (Scopes.push (T := Nat) Scopes.default).2.length
        ≠ (Scopes.push (T := Nat) Scopes.default).1.scopes.length ∧
    (Scopes.pop (Scopes.push (T := Nat) Scopes.default).1 ⟨0, 0⟩
        (Scopes.push (T := Nat) Scopes.default).2).2 = Except.ok () ∧
    (Scopes.pop (Scopes.push (T := Nat) Scopes.default).1 ⟨0, 0⟩
        (Scopes.push (T := Nat) Scopes.default).2).1.scopes.length
      ≠ (Scopes.push (T := Nat) Scopes.default).2.length - 1 :=
  ⟨by decide, rfl, by decide⟩

/-- C2 amended: the guard returned by `push` records the stack length
immediately BEFORE the push that produced it, and a pop is valid only if,
after removal, the stack's new length equals the guard's recorded length
exactly. -/
theorem guard_records_length_before_push {T : Type} (s0 s : Scopes T)
    (spanned : Span) (g : ScopeGuard) :
    (Scopes.push s0).2.length = s0.scopes.length ∧
    ((Scopes.pop s spanned g).2 = Except.ok () →
      (Scopes.pop s spanned g).1.scopes.length = g.length) := by
  refine ⟨rfl, ?_⟩
  cases hs : s.scopes with
  | nil => simp [Scopes.pop, hs]
  | cons fr rest =>
    simp only [Scopes.pop, hs]
    by_cases hl : rest.length = g.length <;> simp [hl]

/-- Witness for `guard_records_length_before_push` at the fresh stack:
the guard records 1 (the pre-push length) and the successful pop leaves a
stack of exactly that length. -/
theorem guard_records_length_before_push_witness :
    (Scopes.push (T := Nat) Scopes.default).2.length
        = (Scopes.default (T := Nat)).scopes.length ∧
    (Scopes.pop (Scopes.push (T := Nat) Scopes.default).1 ⟨0, 0⟩
        (Scopes.push (T := Nat) Scopes.default).2).1.scopes.length
      = (Scopes.push (T := Nat) Scopes.default).2.length :=
  ⟨(guard_records_length_before_push Scopes.default
      (Scopes.push (T := Nat) Scopes.default).1 ⟨0, 0⟩
      (Scopes.push (T := Nat) Scopes.default).2).1,
   (guard_records_length_before_push Scopes.default
      (Scopes.push (T := Nat) Scopes.default).1 ⟨0, 0⟩
      (Scopes.push (T := Nat) Scopes.default).2).2 rfl⟩

/-- Running any correctly paired call sequence from a stack with at least
one frame never reports an error, returns a stack of the same length, and
every state observed after a primitive operation is at least as deep as
the starting stack. -/
theorem runProg_length {T : Type} (p : Prog T) (l : List (Scope T))
    (h : 1 ≤ l.length) :
    ∃ f tr, runProg p ⟨l⟩ = some (f, tr) ∧
      f.scopes.length = l.length ∧
      ∀ t ∈ tr, l.length ≤ t.scopes.length := by
  induction p generalizing l with
  | nil => exact ⟨⟨l⟩, [], rfl, rfl, by simp⟩
  | declOp name value spanned p ih =>
    cases l with
    | nil => simp at h
    | cons fr rest =>
      obtain ⟨f, tr, hrun, hflen, htr⟩ :=
        ih (fr.insert name value :: rest) (by simp)
      refine ⟨f, ⟨fr.insert name value :: rest⟩ :: tr, ?_, ?_, ?_⟩
      · simp [runProg, Scopes.decl, hrun]
      · simpa using hflen
      · intro t ht
        rcases List.mem_cons.mp ht with h1 | h1
        · subst h1; simp
        · simpa using htr t h1
  | clearOp spanned p ih =>
    cases l with
    | nil => simp at h
    | cons fr rest =>
      obtain ⟨f, tr, hrun, hflen, htr⟩ := ih (Scope.default :: rest) (by simp)
      refine ⟨f, ⟨Scope.default :: rest⟩ :: tr, ?_, ?_, ?_⟩
      · simp [runProg, Scopes.clear_current, hrun]
      · simpa using hflen
      · intro t ht
        rcases List.mem_cons.mp ht with h1 | h1
        · subst h1; simp
        · simpa using htr t h1
  | lookupOp name p ih =>
    obtain ⟨f, tr, hrun, hflen, htr⟩ := ih l h
    refine ⟨f, ⟨l⟩ :: tr, ?_, hflen, ?_⟩
    · simp [runProg, hrun]
    · intro t ht
      rcases List.mem_cons.mp ht with h1 | h1
      · subst h1; simp
      · exact htr t h1
  | block spanned body p ihbody ih =>
    obtain ⟨f2, tr2, hrun2, hflen2, htr2⟩ := ihbody (Scope.default :: l) (by simp)
    obtain ⟨m⟩ := f2
    cases m with
    | nil => simp at hflen2
    | cons fr2 rest2 =>
      have hrest2 : rest2.length = l.length := by simp at hflen2; omega
      have hpop : Scopes.pop (⟨fr2 :: rest2⟩ : Scopes T) spanned ⟨l.length⟩
          = (⟨rest2⟩, Except.ok ()) := by
        simp [Scopes.pop, hrest2]
      obtain ⟨f, tr, hrun, hflen, htr⟩ := ih rest2 (by omega)
      refine ⟨f, ⟨Scope.default :: l⟩ :: (tr2 ++ ⟨rest2⟩ :: tr), ?_, ?_, ?_⟩
      · simp [runProg, Scopes.push, hrun2, hpop, hrun]
      · omega
      · intro t ht
        rcases List.mem_cons.mp ht with h1 | h1
        · subst h1; simp
        · rcases List.mem_append.mp h1 with h2 | h2
          · have := htr2 t h2
            simp at this
            omega
          · rcases List.mem_cons.mp h2 with h3 | h3
            · subst h3; simp [hrest2]
            · have := htr t h3
              omega

/-- C3: for every correctly paired call sequence (each push popped with
its own guard in LIFO order, with declares, clears and lookups
interleaved arbitrarily) run from a freshly created stack, no operation
fails, the final length is 1, and the stack observed after every single
operation is nonempty — its length never drops below 1, so the root frame
created at construction is never removed (an operation removing it would
leave the empty stack visible in the trace). -/
theorem paired_sequence_preserves_root {T : Type} (p : Prog T) :
    ∃ f tr, runProg p (Scopes.default (T := T)) = some (f, tr) ∧
      f.scopes.length = 1 ∧
      ∀ t ∈ tr, 1 ≤ t.scopes.length ∧ t.scopes ≠ [] := by
  obtain ⟨f, tr, hrun, hflen, htr⟩ := runProg_length p [Scope.default] (by simp)
  refine ⟨f, tr, ?_, ?_, ?_⟩
  · simpa [Scopes.default] using hrun
  · simpa using hflen
  · intro t ht
    have h1 := htr t ht
    simp at h1
    exact ⟨h1, List.length_pos.mp (by omega)⟩

/-- C4: shadowing — on a fresh stack, declare x = 1 in the outer frame,
push a frame, declare x = 2 in it: lookup returns 2; pop the inner frame
with its guard (which succeeds): lookup returns 1 again. -/
theorem shadowing_scenario :
    let sp : Span := ⟨0, 5⟩
    let d1 := (Scopes.default (T := Nat)).decl "x" 1 sp
    let pushed := d1.1.push
    let d2 := pushed.1.decl "x" 2 sp
    let popped := d2.1.pop sp pushed.2
    d1.2 = Except.ok () ∧ d2.2 = Except.ok () ∧
    d2.1.get "x" = some 2 ∧
    popped.2 = Except.ok () ∧
    popped.1.get "x" = some 1 :=
  ⟨rfl, rfl, rfl, rfl, rfl⟩

/-- C6: `decl` writes `name ↦ value` into the innermost frame only — the
result keeps every outer frame unchanged and the updated innermost frame
agrees with the old one on all other keys — and fails with the internal
"expected at least one scope" error exactly when the stack has no frames. -/
theorem decl_innermost_only {T : Type} (s : Scopes T) (name : String)
    (value : T) (spanned : Span) :
    (s.scopes = [] → s.decl name value spanned
        = (s, .error (Internal.new spanned "expected at least one scope"))) ∧
    (∀ fr rest, s.scopes = fr :: rest →
      (s.decl name value spanned).2 = Except.ok () ∧
      (s.decl name value spanned).1.scopes = fr.insert name value :: rest ∧
      (fr.insert name value).locals name = some value ∧
      ∀ k, k ≠ name → (fr.insert name value).locals k = fr.locals k) := by
  refine ⟨fun hs => by simp [Scopes.decl, hs], fun fr rest hs => ?_⟩
  refine ⟨by simp [Scopes.decl, hs], by simp [Scopes.decl, hs], ?_, ?_⟩
  · simp [Scope.insert]
  · intro k hk
    simp [Scope.insert, hk]

/-- Witness for `decl_innermost_only`: the empty stack rejects a declare
with the internal error; the fresh stack accepts it, binds x in its only
frame, and leaves the other keys of that frame unchanged. -/
theorem decl_innermost_only_witness :
    Scopes.decl (T := Nat) ⟨[]⟩ "x" 5 ⟨0, 0⟩
      = (⟨[]⟩, .error (Internal.new ⟨0, 0⟩ "expected at least one scope")) ∧
    (Scopes.decl (T := Nat) Scopes.default "x" 5 ⟨0, 0⟩).2 = Except.ok () ∧
    (Scopes.decl (T := Nat) Scopes.default "x" 5 ⟨0, 0⟩).1.scopes
      = Scope.default.insert "x" 5 :: [] ∧
    (Scope.default.insert "x" (5 : Nat)).locals "x" = some 5 ∧
    (Scope.default.insert "x" (5 : Nat)).locals "y"
      = (Scope.default (T := Nat)).locals "y" :=
  have h := decl_innermost_only (T := Nat) Scopes.default "x" 5 ⟨0, 0⟩
  have h2 := h.2 Scope.default [] rfl
  ⟨(decl_innermost_only (T := Nat) ⟨[]⟩ "x" 5 ⟨0, 0⟩).1 rfl,
   h2.1, h2.2.1, h2.2.2.1, h2.2.2.2 "y" (by decide)⟩

/-- C7: `clear_current` empties the innermost frame's bindings while
leaving the frame slot in place (the length is unchanged) and does not
touch the outer frames; it fails with the internal "expected at least one
scope" error exactly when the stack is empty. -/
theorem clear_innermost_spec {T : Type} (s : Scopes T) (spanned : Span) :
    (s.scopes = [] → s.clear_current spanned
        = (s, .error (Internal.new spanned "expected at least one scope"))) ∧
    (∀ fr rest, s.scopes = fr :: rest →
      (s.clear_current spanned).2 = Except.ok () ∧
      (s.clear_current spanned).1.scopes = Scope.default :: rest ∧
      (s.clear_current spanned).1.scopes.length = s.scopes.length ∧
      ∀ k, ((s.clear_current spanned).1.scopes.headD Scope.default).locals k
        = none) := by
  refine ⟨fun hs => by simp [Scopes.clear_current, hs], fun fr rest hs => ?_⟩
  refine ⟨by simp [Scopes.clear_current, hs],
    by simp [Scopes.clear_current, hs],
    by simp [Scopes.clear_current, hs], ?_⟩
  intro k
  simp [Scopes.clear_current, hs, Scope.default]

/-- Witness for `clear_innermost_spec`: clearing the empty stack fails
with the internal error; after a declare on the fresh stack, clearing
succeeds, keeps the length at 1, and the innermost frame no longer binds
the declared key. -/
theorem clear_innermost_spec_witness :
    Scopes.clear_current (T := Nat) ⟨[]⟩ ⟨0, 0⟩
      = (⟨[]⟩, .error (Internal.new ⟨0, 0⟩ "expected at least one scope")) ∧
    (((Scopes.default (T := Nat)).decl "x" 7 ⟨0, 0⟩).1.clear_current
        ⟨0, 0⟩).2 = Except.ok () ∧
    (((Scopes.default (T := Nat)).decl "x" 7 ⟨0, 0⟩).1.clear_current
        ⟨0, 0⟩).1.scopes.length
      = ((Scopes.default (T := Nat)).decl "x" 7 ⟨0, 0⟩).1.scopes.length ∧
    ((((Scopes.default (T := Nat)).decl "x" 7 ⟨0, 0⟩).1.clear_current
        ⟨0, 0⟩).1.scopes.headD Scope.default).locals "x" = none :=
  have h := (clear_innermost_spec (T := Nat)
    ((Scopes.default (T := Nat)).decl "x" 7 ⟨0, 0⟩).1 ⟨0, 0⟩).2
    (Scope.default.insert "x" 7) [] rfl
  ⟨(clear_innermost_spec (T := Nat) ⟨[]⟩ ⟨0, 0⟩).1 rfl,
   h.1, h.2.2.1, h.2.2.2 "x"⟩

/-- C8: declare/lookup round-trip — on any stack with at least one frame,
after `decl name v` an immediate lookup returns `v`; redeclaring the same
key in the same (innermost, untouched-in-between) frame overwrites it, so
a subsequent `decl name v2` makes lookup return `v2`, with the stack depth
unchanged throughout. -/
theorem decl_get_roundtrip {T : Type} (s : Scopes T) (fr : Scope T)
    (rest : List (Scope T)) (name : String) (v v2 : T) (spanned : Span)
    (h : s.scopes = fr :: rest) :
    (s.decl name v spanned).1.get name = some v ∧
    ((s.decl name v spanned).1.decl name v2 spanned).1.get name = some v2 ∧
    ((s.decl name v spanned).1.decl name v2 spanned).1.scopes.length
      = s.scopes.length := by
  refine ⟨?_, ?_, ?_⟩ <;>
    simp [Scopes.decl, h, Scopes.get, lookupFrames, Scope.insert]

/-- Witness for `decl_get_roundtrip` on the fresh stack with x bound to 1
and then overwritten by 2. -/
theorem decl_get_roundtrip_witness :
    ((Scopes.default (T := Nat)).decl "x" 1 ⟨0, 0⟩).1.get "x" = some 1 ∧
    (((Scopes.default (T := Nat)).decl "x" 1 ⟨0, 0⟩).1.decl "x" 2
        ⟨0, 0⟩).1.get "x" = some 2 ∧
    (((Scopes.default (T := Nat)).decl "x" 1 ⟨0, 0⟩).1.decl "x" 2
        ⟨0, 0⟩).1.scopes.length = (Scopes.default (T := Nat)).scopes.length :=
  decl_get_roundtrip Scopes.default Scope.default [] "x" 1 2 ⟨0, 0⟩ rfl

/-- C9: `pop` is not atomic on failure — the frame is removed before the
guard check, so a mismatched pop still returns the shrunk stack; on a
one-frame stack a mismatched pop leaves the stack empty, which makes the
"expected at least one scope" branches of `decl` and `clear_current`
reachable. -/
theorem pop_removes_frame_before_check {T : Type} (s : Scopes T)
    (fr : Scope T) (rest : List (Scope T)) (spanned : Span) (g : ScopeGuard)
    (name : String) (value : T)
    (h : s.scopes = fr :: rest) (hg : rest.length ≠ g.length) :
    Scopes.pop s spanned g
      = (⟨rest⟩, .error (Internal.new spanned "scope length mismatch")) ∧
    (rest = [] →
      ((Scopes.pop s spanned g).1.decl name value spanned).2
        = .error (Internal.new spanned "expected at least one scope") ∧
      ((Scopes.pop s spanned g).1.clear_current spanned).2
        = .error (Internal.new spanned "expected at least one scope")) := by
  have h1 : Scopes.pop s spanned g
      = (⟨rest⟩, .error (Internal.new spanned "scope length mismatch")) := by
    simp [Scopes.pop, h, hg]
  refine ⟨h1, fun hr => ?_⟩
  subst hr
  rw [h1]
  exact ⟨rfl, rfl⟩

/-- Witness for `pop_removes_frame_before_check`: a pop of the fresh
one-frame stack with a wrong guard leaves the empty stack behind, after
which both `decl` and `clear_current` hit their internal-error branch. -/
theorem pop_removes_frame_before_check_witness :
    Scopes.pop (T := Nat) Scopes.default ⟨0, 0⟩ ⟨5⟩
      = (⟨[]⟩, .error (Internal.new ⟨0, 0⟩ "scope length mismatch")) ∧
    ((Scopes.pop (T := Nat) Scopes.default ⟨0, 0⟩ ⟨5⟩).1.decl "x" 0
        ⟨0, 0⟩).2 = .error (Internal.new ⟨0, 0⟩ "expected at least one scope") ∧
    ((Scopes.pop (T := Nat) Scopes.default ⟨0, 0⟩ ⟨5⟩).1.clear_current
        ⟨0, 0⟩).2 = .error (Internal.new ⟨0, 0⟩ "expected at least one scope") :=
  have h := pop_removes_frame_before_check (T := Nat) Scopes.default
    Scope.default [] ⟨0, 0⟩ ⟨5⟩ "x" 0 rfl (by decide)
  ⟨h.1, (h.2 rfl).1, (h.2 rfl).2⟩

/-- C10: compiling the test program whose body is the statement `break;`
outside any loop yields the "break outside of loop" diagnostic, compiling
the one using `break` as a value yields the "break does not produce a
value" diagnostic, and in both test programs the diagnostic's span is
exactly the `break` token's byte range 41..46. -/
theorem illegal_break_spans :
    compileIllegalBreak sourceBreakStatement
      = some (.BreakOutsideOfLoop ⟨41, 46⟩) ∧
    compileIllegalBreak sourceBreakValue
      = some (.BreakDoesNotProduceValue ⟨41, 46⟩) :=
  ⟨rfl, rfl⟩
